import Mathlib

/-!
Shallow embedding of the bladeRF transmit-sink block of gr-osmosdr
(src/lib/bladerf/bladerf_sink_c.cc) together with proofs of the
specification claims about it.

Modelling conventions:

* Machine integers are Nat/Int; where the C code performs a fixed-width
  conversion the wrap-around is written explicitly (int16ofInt).
* A complex floating-point sample is embedded as an exact pair of
  fractions (CSample): each component is num / den with den positive.
  The arithmetic the converter performs on it (multiply by the constant
  SCALE and truncate toward zero) is exact in this representation.
* The two concurrent execution contexts (the caller driving work() and
  the stream thread driving get_next_buffer()) are embedded by making
  every blocking wait explicit: while a context is blocked in a
  condition-variable wait, the other context and the lifecycle
  controller act; those actions are consumed from an environment list
  (EnvAct).  A wait that runs out of environment actions while still
  blocked yields none (the context would sleep forever).
* Device register accesses are embedded by their effect on a small
  device-state record; a path on which the C++ code would throw
  std::runtime_error is an Except.error.
-/

namespace BladerfSink

/-! ### Constructor configuration (bladerf_sink_c.cc, lines 162-199) -/

/-- Default buffer count, the NUM_BUFFERS macro (line 42). -/
def NUM_BUFFERS : Nat := 32

/-- Default samples per buffer, the NUM_SAMPLES_PER_BUFFER macro (line 43). -/
def NUM_SAMPLES_PER_BUFFER : Nat := 4096

/-- Effective buffer-pool size: the buffers= argument (0 when absent),
with values at most 1 replaced by the default (lines 180-182). -/
def configNumBuffers (buffers : Nat) : Nat :=
  if buffers ≤ 1 then NUM_BUFFERS else buffers

/-- Effective samples per buffer from the buflen= byte count (0 when absent):
0 yields the default; otherwise the byte count is divided by
2 * sizeof(int16_t) and the quotient is kept only when it is at least 1024
and a multiple of 1024 (lines 184-192). -/
def configSamplesPerBuffer (buflenBytes : Nat) : Nat :=
  if buflenBytes = 0 then NUM_SAMPLES_PER_BUFFER
  else
    if buflenBytes / (2 * 2) < 1024 ∨ buflenBytes / (2 * 2) % 1024 ≠ 0 then
      NUM_SAMPLES_PER_BUFFER
    else
      buflenBytes / (2 * 2)

/-- Effective transfer count: the transfers= argument (0 when absent),
clamped to half the effective buffer count when 0 or too large
(lines 196-199). -/
def configTransfers (buffers transfers : Nat) : Nat :=
  if transfers = 0 ∨ transfers > configNumBuffers buffers / 2 then
    configNumBuffers buffers / 2
  else
    transfers

/-! ### Sample converter (work(), lines 343-356) -/

/-- Fixed linear scale factor applied to each sample component (the literal
2000 on lines 346 and 349). -/
def SCALE : Int := 2000

/-- Wrap-around conversion of an integer to the signed 16-bit range,
the effect of the (int16_t) cast on lines 346 and 349. -/
def int16ofInt (x : Int) : Int := (x + 32768) % 65536 - 32768

/-- One complex input sample (a gr_complex), with real and imaginary parts
given as exact fractions num / den, den positive. -/
structure CSample where
  reN : Int
  reD : Nat
  imN : Int
  imD : Nat
deriving DecidableEq

/-- Truncation toward zero of (n / d) * SCALE, the float multiply followed
by the float-to-integer cast of the C code, computed exactly. -/
def truncScale (n : Int) (d : Nat) : Int :=
  Int.sign (n * SCALE) * (((n * SCALE).natAbs / d : Nat) : Int)

/-- The converter: one complex sample becomes the pair (I, Q) of signed
16-bit integers, I from the real part first, then Q from the imaginary
part, with no clamping (lines 345-350). -/
def convertSample (s : CSample) : Int × Int :=
  (int16ofInt (truncScale s.reN s.reD), int16ofInt (truncScale s.imN s.imD))

/-- Modelled from the spec: the interleaved 16-bit wire stream that a list
of samples should produce, I then Q per sample, in input order. -/
def convertedStream : List CSample → List Int
  | [] => []
  | s :: rest => (convertSample s).1 :: (convertSample s).2 :: convertedStream rest

/-- The inner copy loop of work() (lines 343-356): convert samples into the
current buffer while both the slot space counter and the input are
nonzero.  Returns the remaining input, the remaining slot space, and the
written wire stream. -/
def copyLoop : List CSample → Nat → List Int → List CSample × Nat × List Int
  | [], samplesLeft, written => ([], samplesLeft, written)
  | s :: rest, 0, written => (s :: rest, 0, written)
  | s :: rest, samplesLeft + 1, written =>
      copyLoop rest samplesLeft
        (written ++ [(convertSample s).1, (convertSample s).2])

/-! ### Shared pipeline state -/

/-- The mutable state shared between work() and get_next_buffer():
the pool bookkeeping fields of bladerf_sink_c.  The written field is the
flattened wire stream produced so far; sampSignals and emptiedSignals
count the notify calls on the two condition variables. -/
structure SinkState where
  numBuffers : Nat
  samplesPerBuffer : Nat
  filled : List Bool
  bufIndex : Nat
  nextToTx : Nat
  samplesLeft : Nat
  running : Bool
  written : List Int
  sampSignals : Nat
  emptiedSignals : Nat
deriving DecidableEq

/-- An action of the environment (the other execution context or the
lifecycle controller) taken while the current context is blocked in a
condition wait: the consumer marks a slot emptied, the producer marks a
slot filled, or the controller clears the running flag. -/
inductive EnvAct where
  | emptied (i : Nat)
  | fill (i : Nat)
  | stop
deriving DecidableEq

/-- Effect of one environment action on the shared state. -/
def applyEnv : EnvAct → SinkState → SinkState
  | EnvAct.emptied i, st => { st with filled := st.filled.set i false }
  | EnvAct.fill i, st => { st with filled := st.filled.set i true }
  | EnvAct.stop, st => { st with running := false }

/-! ### Producer path: work() (lines 329-382) -/

/-- Condition of the producer wait loop on line 373: the next slot to fill
is still marked filled and the locally observed running flag is true. -/
def prodWaitCond (st : SinkState) (r : Bool) : Bool :=
  st.filled.getD st.bufIndex false && r

/-- The producer wait loop (lines 373-376): while the condition holds,
block; each wakeup consumes one environment action and re-reads the
running flag.  Returns the state, the last observed running value and the
unconsumed environment, or none if the environment is exhausted while
still blocked. -/
def waitEmptied : List EnvAct → SinkState → Bool → Option (SinkState × Bool × List EnvAct)
  | [], st, r => if prodWaitCond st r then none else some (st, r, [])
  | a :: rest, st, r =>
      if prodWaitCond st r then
        waitEmptied rest (applyEnv a st) (applyEnv a st).running
      else
        some (st, r, a :: rest)

/-- Buffer rotation on slot completion (lines 363-369): mark the current
slot filled, advance the fill cursor modulo the pool size, reset the
space counter, and signal the sample-available condition. -/
def rotateBuffer (st : SinkState) : SinkState :=
  { st with filled := st.filled.set st.bufIndex true,
            bufIndex := (st.bufIndex + 1) % st.numBuffers,
            samplesLeft := st.samplesPerBuffer,
            sampSignals := st.sampSignals + 1 }

/-- State after the inner copy loop has run on the given input. -/
def afterCopy (ins : List CSample) (st : SinkState) : SinkState :=
  { st with samplesLeft := (copyLoop ins st.samplesLeft st.written).2.1,
            written := (copyLoop ins st.samplesLeft st.written).2.2 }

/-- The outer loop of work() (lines 341-379), fuelled for termination:
while the locally observed running flag is true and input remains, copy
into the current slot; on slot completion rotate and wait for the next
slot to be emptied.  Returns the count of unconsumed input samples, the
final locally observed running value and the final state. -/
def workAux : Nat → List CSample → List EnvAct → SinkState → Bool → Option (Nat × Bool × SinkState)
  | 0, _, _, _, _ => none
  | fuel + 1, ins, env, st, r =>
      if r = true ∧ ins ≠ [] then
        if (copyLoop ins st.samplesLeft st.written).2.1 = 0 then
          match waitEmptied env (rotateBuffer (afterCopy ins st)) r with
          | none => none
          | some (st2, r2, env2) =>
              workAux fuel (copyLoop ins st.samplesLeft st.written).1 env2 st2 r2
        else
          workAux fuel (copyLoop ins st.samplesLeft st.written).1 env (afterCopy ins st) r
      else
        some (ins.length, r, st)

/-- work() entry point (lines 329-382): reads the running flag, runs the
outer loop, and returns the pair of the C return value
(noutput_items when the locally observed running flag is still true at
exit, 0 otherwise, line 381), the number of input samples actually
consumed, and the final state. -/
def work (ins : List CSample) (env : List EnvAct) (st : SinkState) :
    Option (Int × Nat × SinkState) :=
  match workAux (2 * ins.length + 2) ins env st st.running with
  | none => none
  | some out =>
      some (if out.2.1 = true then (ins.length : Int) else 0,
            ins.length - out.1, out.2.2)

/-- The C return value of a completed work() call. -/
def workRet (ins : List CSample) (env : List EnvAct) (st : SinkState) : Option Int :=
  (work ins env st).map (fun out => out.1)

/-- The number of input samples a completed work() call actually consumed
(converted and wrote into the pool). -/
def workConsumed (ins : List CSample) (env : List EnvAct) (st : SinkState) : Option Nat :=
  (work ins env st).map (fun out => out.2.1)

/-! ### Consumer path: get_next_buffer() (lines 272-314) -/

/-- Pointer-to-slot resolution (buffer2index, lines 272-281): the returned
buffer pointer is modelled by its slot index; resolution succeeds exactly
when it denotes one of the pool slots, otherwise the function throws. -/
def buffer2index (current : Nat) (numBuffers : Nat) : Except String Nat :=
  if current < numBuffers then Except.ok current
  else Except.error "buffer2index has hit unexpected condition"

/-- Marking the returned buffer empty and signalling the buffer-emptied
condition (lines 293-298). -/
def markEmptied (i : Nat) (st : SinkState) : SinkState :=
  { st with filled := st.filled.set i false,
            emptiedSignals := st.emptiedSignals + 1 }

/-- Condition of the consumer wait loop on line 301: the running flag is
re-read at every check and the slot at the drain cursor is not filled. -/
def consWaitCond (st : SinkState) : Bool :=
  st.running && !(st.filled.getD st.nextToTx false)

/-- The consumer wait loop (lines 300-303), consuming environment actions
while blocked; at exit the last running value read equals the running
field of the returned state. -/
def waitSampAvail : List EnvAct → SinkState → Option (SinkState × List EnvAct)
  | [], st => if consWaitCond st then none else some (st, [])
  | a :: rest, st =>
      if consWaitCond st then waitSampAvail rest (applyEnv a st)
      else some (st, a :: rest)

/-- The hand-off after the wait (lines 305-310): when running, return the
buffer at the drain cursor and advance the cursor modulo the pool size;
when not running, return NULL (modelled as none). -/
def gnbFinish (st : SinkState) (env : List EnvAct) :
    Option Nat × SinkState × List EnvAct :=
  if st.running = true then
    (some st.nextToTx,
     { st with nextToTx := (st.nextToTx + 1) % st.numBuffers }, env)
  else
    (none, st, env)

/-- Wait phase plus hand-off of get_next_buffer(); none inside ok means
the wait blocked with no further environment activity. -/
def gnbWaitPhase (env : List EnvAct) (st : SinkState) :
    Except String (Option (Option Nat × SinkState × List EnvAct)) :=
  match waitSampAvail env st with
  | none => Except.ok none
  | some (st2, env2) => Except.ok (some (gnbFinish st2 env2))

/-- get_next_buffer() (lines 284-314): resolve a non-null returned buffer
to its slot, mark it empty and signal, then wait and hand off the next
filled buffer (or NULL once the running flag is observed false). -/
def get_next_buffer (env : List EnvAct) (st : SinkState) (samples : Option Nat) :
    Except String (Option (Option Nat × SinkState × List EnvAct)) :=
  match samples with
  | some p =>
      match buffer2index p st.numBuffers with
      | Except.error e => Except.error e
      | Except.ok i => gnbWaitPhase env (markEmptied i st)
  | none => gnbWaitPhase env st

/-! ### Destructor (lines 234-259) -/

/-- The observable actions of the destructor body, in source order. -/
inductive DtorAct where
  | setRunningFalse
  | lockBufStatus
  | notifySampAvail
  | notifyBufferEmptied
  | unlockBufStatus
  | joinThread
  | disableTxModule
  | deinitStream
  | closeDevice
  | freeFilled
deriving DecidableEq

/-- Program order of the destructor body (lines 238-258): set_running(false)
happens first, before the buffer-status lock is taken; the two notify_all
calls happen between lock and unlock; the thread join follows the unlock;
module disable, stream deinit, device close and the release of the filled
array follow the join. -/
def dtorTrace : List DtorAct :=
  [DtorAct.setRunningFalse, DtorAct.lockBufStatus, DtorAct.notifySampAvail,
   DtorAct.notifyBufferEmptied, DtorAct.unlockBufStatus, DtorAct.joinThread,
   DtorAct.disableTxModule, DtorAct.deinitStream, DtorAct.closeDevice,
   DtorAct.freeFilled]

/-- Index of the first occurrence of an action in a list. -/
def listIdx : List DtorAct → DtorAct → Nat
  | [], _ => 0
  | b :: rest, a => if a = b then 0 else listIdx rest a + 1

/-- Position of an action in the destructor's program order. -/
def dtorIdx (a : DtorAct) : Nat := listIdx dtorTrace a

/-! ### Center frequency (set_center_freq, lines 448-468) -/

/-- Truncation toward zero of a rational, the double-to-integer cast. -/
def ratTruncQ (q : ℚ) : Int :=
  Int.sign q.num * ((q.num.natAbs / q.den : Nat) : Int)

/-- Wrap of a rational into the unsigned 32-bit range, the (uint32_t) cast
applied to the frequency on line 457. -/
def uint32ofQ (q : ℚ) : Int := ratTruncQ q % (2 ^ 32)

/-- Device-side frequency register state. -/
structure FreqState where
  curFreq : ℚ
deriving DecidableEq

/-- set_center_freq (lines 448-468): an out-of-range request is logged and
ignored and the call returns the device's current frequency; an in-range
request writes the cast frequency (throwing only if the device write
fails, modelled by the devFail flag) and returns the value read back. -/
def set_center_freq (lo hi : ℚ) (devFail : Bool) (freq : ℚ) (dev : FreqState) :
    Except String (FreqState × ℚ) :=
  if freq < lo ∨ hi < freq then
    Except.ok (dev, dev.curFreq)
  else if devFail = true then
    Except.error "failed to set center frequency"
  else
    Except.ok (⟨(uint32ofQ freq : ℚ)⟩, (uint32ofQ freq : ℚ))

/-! ### Gain element dispatch (lines 506-596) -/

/-- Device-side gain register state: the two TX VGA stages. -/
structure GainState where
  vga1 : Int
  vga2 : Int
deriving DecidableEq

/-- get_gain_range(name, chan) (lines 513-527): the stored (start, stop,
step) range for VGA1 or VGA2, an error for any other name. -/
def get_gain_range_named (name : String) : Except String (ℚ × ℚ × ℚ) :=
  if name = "VGA1" then Except.ok (-35, -4, 1)
  else if name = "VGA2" then Except.ok (0, 25, 1)
  else Except.error "requested an invalid gain element"

/-- get_gain(name, chan) (lines 573-596): read the named stage register,
an error for any other name before any device access. -/
def get_gain_named (name : String) (dev : GainState) : Except String ℚ :=
  if name = "VGA1" then Except.ok (dev.vga1 : ℚ)
  else if name = "VGA2" then Except.ok (dev.vga2 : ℚ)
  else Except.error "requested to get the gain of an unknown gain element"

/-- set_gain(gain, name, chan) (lines 544-566): write the cast gain to the
named stage register and return the value read back; an error for any
other name before any device access. -/
def set_gain_named (gain : ℚ) (name : String) (dev : GainState) :
    Except String (GainState × ℚ) :=
  if name = "VGA1" then
    match get_gain_named name { dev with vga1 := ratTruncQ gain } with
    | Except.ok g => Except.ok ({ dev with vga1 := ratTruncQ gain }, g)
    | Except.error e => Except.error e
  else if name = "VGA2" then
    match get_gain_named name { dev with vga2 := ratTruncQ gain } with
    | Except.ok g => Except.ok ({ dev with vga2 := ratTruncQ gain }, g)
    | Except.error e => Except.error e
  else
    Except.error "requested to set the gain of an unknown gain element"

/-- Whether an Except value is a success. -/
def exceptIsOk {α : Type} : Except String α → Bool
  | Except.ok _ => true
  | Except.error _ => false

/-! ### Producer/consumer interleaving as a transition system

For the per-slot alternation invariant the two paths are embedded as a
labelled transition system over the shared pool state.  The producer's
guards come from its wait discipline in work(); the consumer's guards
come from the wait in get_next_buffer() and from the stream engine's
callback contract (each buffer handed to the hardware is held once and
returned exactly once, so the in-flight buffers are pairwise distinct). -/

/-- Pool state for the interleaving model: pool size, filled flags, the
two cyclic cursors, the buffers currently held by the hardware engine,
whether the producer is at its write point (rather than blocked in its
wait), and the running flag. -/
structure TSState where
  n : Nat
  filled : List Bool
  bufIndex : Nat
  nextToTx : Nat
  inflight : List Nat
  prodReady : Bool
  running : Bool
deriving DecidableEq

/-- Event labels of the transition system. -/
inductive Ev where
  | write (i : Nat)
  | hand (i : Nat)
  | ret (i : Nat)
  | wake
  | stop
deriving DecidableEq

/-- Initial state after construction (lines 209-221): cursors at slot 0,
all slots unfilled, nothing in flight, producer about to write. -/
def initTS (n : Nat) : TSState :=
  { n := n, filled := List.replicate n false, bufIndex := 0, nextToTx := 0,
    inflight := [], prodReady := true, running := true }

/-- One step of either context.
write: the producer finishes writing the current slot, marks it filled and
advances (lines 343-369), then faces its wait.
wake: the producer leaves its wait because the next slot is unfilled
(line 373).
hand: the consumer hands the filled slot at the drain cursor to the
hardware and advances (lines 305-307); the engine cannot already hold it.
ret: the hardware returns a held buffer and the consumer marks it unfilled
(lines 293-298).
stop: the lifecycle controller clears the running flag. -/
inductive Step : TSState → Ev → TSState → Prop where
  | write (s : TSState) (h : s.prodReady = true) :
      Step s (Ev.write s.bufIndex)
        { s with filled := s.filled.set s.bufIndex true,
                 bufIndex := (s.bufIndex + 1) % s.n,
                 prodReady := false }
  | wake (s : TSState) (h1 : s.prodReady = false)
      (h2 : s.filled.getD s.bufIndex false = false) :
      Step s Ev.wake { s with prodReady := true }
  | hand (s : TSState) (h1 : s.filled.getD s.nextToTx false = true)
      (h2 : s.nextToTx ∉ s.inflight) :
      Step s (Ev.hand s.nextToTx)
        { s with inflight := s.nextToTx :: s.inflight,
                 nextToTx := (s.nextToTx + 1) % s.n }
  | ret (s : TSState) (i : Nat) (h : i ∈ s.inflight) :
      Step s (Ev.ret i)
        { s with filled := s.filled.set i false,
                 inflight := s.inflight.erase i }
  | stop (s : TSState) : Step s Ev.stop { s with running := false }

/-- States reachable from the initial all-unfilled state. -/
inductive ReachableTS (n : Nat) : TSState → Prop where
  | init : ReachableTS n (initTS n)
  | step (s : TSState) (e : Ev) (s2 : TSState) :
      ReachableTS n s → Step s e s2 → ReachableTS n s2

/-- Inductive invariant of the pool: sizes agree, cursors are in range,
the producer's write point sees an unfilled slot, every in-flight buffer
is marked filled, and the in-flight buffers are pairwise distinct. -/
def InvTS (s : TSState) : Prop :=
  0 < s.n ∧ s.filled.length = s.n ∧ s.bufIndex < s.n ∧ s.nextToTx < s.n ∧
  (s.prodReady = true → s.filled.getD s.bufIndex false = false) ∧
  (∀ i, i ∈ s.inflight → s.filled.getD i false = true) ∧
  s.inflight.Nodup

/-! ### Concrete states used by witnesses and counterexamples -/

/-- Three zero-valued input samples. -/
def samples3 : List CSample := [⟨0, 1, 0, 1⟩, ⟨0, 1, 0, 1⟩, ⟨0, 1, 0, 1⟩]

/-- A running two-slot pipeline: slot 0 being filled with room for two
samples, slot 1 already filled. -/
def stStart : SinkState :=
  { numBuffers := 2, samplesPerBuffer := 2, filled := [false, true],
    bufIndex := 0, nextToTx := 0, samplesLeft := 2, running := true,
    written := [], sampSignals := 0, emptiedSignals := 0 }

/-- The same pipeline after shutdown was requested. -/
def stStopped : SinkState := { stStart with running := false }

/-- A running two-slot pipeline with both slots filled. -/
def stDrain : SinkState := { stStart with filled := [true, true] }

/-- Result state of get_next_buffer on stDrain returning buffer 1:
slot 1 marked empty and signalled, buffer 0 handed off, cursor advanced. -/
def stDrainAfter : SinkState :=
  { numBuffers := 2, samplesPerBuffer := 2, filled := [true, false],
    bufIndex := 0, nextToTx := 1 % 2, samplesLeft := 2, running := true,
    written := [], sampSignals := 0, emptiedSignals := 1 }

/-- State reached from initTS 2 by the producer writing slot 0. -/
def tsAfterWrite : TSState :=
  { initTS 2 with filled := (initTS 2).filled.set (initTS 2).bufIndex true,
                  bufIndex := ((initTS 2).bufIndex + 1) % (initTS 2).n,
                  prodReady := false }

/-- A frequency device whose register currently holds 5. -/
def devFreq5 : FreqState := ⟨5⟩

/-- A gain device with both stages at 0. -/
def gainDev0 : GainState := ⟨0, 0⟩

deriving instance DecidableEq for Except

/-! ## Helper lemmas -/

theorem getD_set_self : ∀ (l : List Bool) (i : Nat) (b : Bool), i < l.length →
    (l.set i b).getD i false = b
  | [], _, _, h => absurd h (by simp)
  | _ :: _, 0, _, _ => rfl
  | _ :: xs, i + 1, b, h => getD_set_self xs i b (by simpa using h)

theorem getD_set_ne : ∀ (l : List Bool) (i j : Nat) (b : Bool), i ≠ j →
    (l.set i b).getD j false = l.getD j false
  | [], _, _, _, _ => rfl
  | _ :: _, 0, 0, _, h => absurd rfl h
  | _ :: _, 0, _ + 1, _, _ => rfl
  | _ :: _, _ + 1, 0, _, _ => rfl
  | _ :: xs, i + 1, j + 1, b, h => getD_set_ne xs i j b (by omega)

theorem getD_set_false_any : ∀ (l : List Bool) (i : Nat),
    (l.set i false).getD i false = false
  | [], _ => rfl
  | _ :: _, 0 => rfl
  | _ :: xs, i + 1 => getD_set_false_any xs i

theorem getD_replicate_false : ∀ (n i : Nat),
    (List.replicate n false).getD i false = false
  | 0, _ => rfl
  | _ + 1, 0 => rfl
  | n + 1, i + 1 => getD_replicate_false n i

theorem int16ofInt_bounds (x : Int) :
    -32768 ≤ int16ofInt x ∧ int16ofInt x < 32768 := by
  have h1 := Int.emod_nonneg (x + 32768) (show (65536 : Int) ≠ 0 by decide)
  have h2 := Int.emod_lt_of_pos (x + 32768) (show (0 : Int) < 65536 by decide)
  unfold int16ofInt
  omega

theorem applyEnv_frame (a : EnvAct) (st : SinkState) :
    (applyEnv a st).nextToTx = st.nextToTx ∧
    (applyEnv a st).numBuffers = st.numBuffers := by
  cases a <;> exact ⟨rfl, rfl⟩

theorem waitEmptied_tracks_running :
    ∀ (env : List EnvAct) (st : SinkState) (r : Bool) (st2 : SinkState)
      (r2 : Bool) (env2 : List EnvAct),
      waitEmptied env st r = some (st2, r2, env2) → r = st.running →
      r2 = st2.running := by
  intro env
  induction env with
  | nil =>
    intro st r st2 r2 env2 h hr
    unfold waitEmptied at h
    by_cases hc : prodWaitCond st r = true
    · rw [if_pos hc] at h
      exact absurd h (by simp)
    · rw [if_neg hc] at h
      simp at h
      obtain ⟨h1, h2, _⟩ := h
      rw [← h2, ← h1]
      exact hr
  | cons a rest ih =>
    intro st r st2 r2 env2 h hr
    unfold waitEmptied at h
    by_cases hc : prodWaitCond st r = true
    · rw [if_pos hc] at h
      exact ih (applyEnv a st) (applyEnv a st).running st2 r2 env2 h rfl
    · rw [if_neg hc] at h
      simp at h
      obtain ⟨h1, h2, _⟩ := h
      rw [← h2, ← h1]
      exact hr

theorem waitEmptied_entry_stopped (env : List EnvAct) (st : SinkState) :
    waitEmptied env st false = some (st, false, env) := by
  cases env with
  | nil => simp [waitEmptied, prodWaitCond]
  | cons a rest => simp [waitEmptied, prodWaitCond]

theorem waitSampAvail_frame :
    ∀ (env : List EnvAct) (st : SinkState) (st2 : SinkState) (env2 : List EnvAct),
      waitSampAvail env st = some (st2, env2) →
      st2.nextToTx = st.nextToTx ∧ st2.numBuffers = st.numBuffers := by
  intro env
  induction env with
  | nil =>
    intro st st2 env2 h
    unfold waitSampAvail at h
    by_cases hc : consWaitCond st = true
    · rw [if_pos hc] at h
      exact absurd h (by simp)
    · rw [if_neg hc] at h
      simp at h
      obtain ⟨h1, _⟩ := h
      rw [← h1]
      exact ⟨rfl, rfl⟩
  | cons a rest ih =>
    intro st st2 env2 h
    unfold waitSampAvail at h
    by_cases hc : consWaitCond st = true
    · rw [if_pos hc] at h
      have h2 := ih (applyEnv a st) st2 env2 h
      have h3 := applyEnv_frame a st
      exact ⟨h2.1.trans h3.1, h2.2.trans h3.2⟩
    · rw [if_neg hc] at h
      simp at h
      obtain ⟨h1, _⟩ := h
      rw [← h1]
      exact ⟨rfl, rfl⟩

theorem workAux_tracks_running :
    ∀ (fuel : Nat) (ins : List CSample) (env : List EnvAct) (st : SinkState)
      (r : Bool) (rem : Nat) (r2 : Bool) (st2 : SinkState),
      workAux fuel ins env st r = some (rem, r2, st2) → r = st.running →
      r2 = st2.running := by
  intro fuel
  induction fuel with
  | zero =>
    intro ins env st r rem r2 st2 h _
    exact absurd h (by simp [workAux])
  | succ fuel ih =>
    intro ins env st r rem r2 st2 h hr
    unfold workAux at h
    by_cases hc : (r = true ∧ ins ≠ [])
    · rw [if_pos hc] at h
      by_cases hsl : (copyLoop ins st.samplesLeft st.written).2.1 = 0
      · rw [if_pos hsl] at h
        cases hwe : waitEmptied env (rotateBuffer (afterCopy ins st)) r with
        | none =>
          rw [hwe] at h
          exact absurd h (by simp)
        | some out =>
          obtain ⟨st3, r3, env3⟩ := out
          rw [hwe] at h
          have hr3 : r3 = st3.running :=
            waitEmptied_tracks_running env (rotateBuffer (afterCopy ins st)) r
              st3 r3 env3 hwe hr
          exact ih (copyLoop ins st.samplesLeft st.written).1 env3 st3 r3
            rem r2 st2 h hr3
      · rw [if_neg hsl] at h
        exact ih (copyLoop ins st.samplesLeft st.written).1 env
          (afterCopy ins st) r rem r2 st2 h hr
    · rw [if_neg hc] at h
      simp at h
      obtain ⟨_, h2, h3⟩ := h
      rw [← h2, ← h3]
      exact hr

/-! ## Claim C2: transfer count clamped to half the buffer count -/

/-- C2 (confirmed): for every construction-time configuration, the
effective transfer count is at most half the effective buffer count, and
a transfers value that is 0 (unset) or larger than that half is replaced
by exactly half the buffer count (lines 196-199). -/
theorem C2_transfers_clamped (buffers transfers : Nat) :
    configTransfers buffers transfers ≤ configNumBuffers buffers / 2 ∧
    ((transfers = 0 ∨ configNumBuffers buffers / 2 < transfers) →
      configTransfers buffers transfers = configNumBuffers buffers / 2) := by
  unfold configTransfers configNumBuffers NUM_BUFFERS
  split_ifs <;> omega

/-- Witness for C2 at the all-defaults configuration. -/
theorem C2_transfers_clamped_witness :
    configTransfers 0 0 ≤ configNumBuffers 0 / 2 ∧
    ((0 = 0 ∨ configNumBuffers 0 / 2 < 0) →
      configTransfers 0 0 = configNumBuffers 0 / 2) :=
  C2_transfers_clamped 0 0

/-! ## Claim C5: buffer pool size (evenness is not enforced) -/

/-- C5 counterexample: the buffers=3 configuration is accepted unchanged,
so the pool size in effect is 3, which is not even; the constructor only
rejects values at most 1 (lines 180-182). -/
theorem C5_odd_pool_counterexample :
    configNumBuffers 3 = 3 ∧ ¬ Even (configNumBuffers 3) := by
  constructor
  · rfl
  · rw [show configNumBuffers 3 = 3 from rfl]
    decide

/-- C5 (amended): the pool size in effect after construction is at least 2;
values at most 1 are replaced by the default 32, and any value at least 2
is kept as is, whether even or odd. -/
theorem C5_buffer_count (buffers : Nat) :
    2 ≤ configNumBuffers buffers ∧
    (buffers ≤ 1 → configNumBuffers buffers = NUM_BUFFERS) ∧
    (2 ≤ buffers → configNumBuffers buffers = buffers) := by
  unfold configNumBuffers NUM_BUFFERS
  split_ifs <;> omega

/-- Witness for C5 at the rejected value 0. -/
theorem C5_buffer_count_witness :
    2 ≤ configNumBuffers 0 ∧
    (0 ≤ 1 → configNumBuffers 0 = NUM_BUFFERS) ∧
    (2 ≤ 0 → configNumBuffers 0 = 0) :=
  C5_buffer_count 0

/-! ## Claim C7: the sample converter -/

/-- C7 (confirmed): the copy loop writes, for each consumed sample in
order, exactly the two signed 16-bit integers I then Q with
I = trunc(real * SCALE) and Q = trunc(imag * SCALE); both lie in the
signed 16-bit range; converting (1/10, -1/5) yields exactly (200, -400);
and an out-of-range product wraps rather than clamps: (20, 0) yields
(-25536, 0). -/
theorem C7_converter :
    (∀ (ins : List CSample) (samplesLeft : Nat) (written : List Int),
      (copyLoop ins samplesLeft written).2.2
        = written ++ convertedStream (ins.take samplesLeft)) ∧
    (∀ s : CSample,
      -32768 ≤ (convertSample s).1 ∧ (convertSample s).1 < 32768 ∧
      -32768 ≤ (convertSample s).2 ∧ (convertSample s).2 < 32768) ∧
    convertSample ⟨1, 10, -1, 5⟩ = (200, -400) ∧
    convertSample ⟨20, 1, 0, 1⟩ = (-25536, 0) := by
  refine ⟨?_, ?_, by decide, by decide⟩
  · intro ins
    induction ins with
    | nil => intro samplesLeft written; simp [copyLoop, convertedStream]
    | cons s rest ih =>
      intro samplesLeft written
      cases samplesLeft with
      | zero => simp [copyLoop, convertedStream]
      | succ m => simp [copyLoop, convertedStream, ih rest.length, ih m]
  · intro s
    obtain ⟨h1, h2⟩ := int16ofInt_bounds (truncScale s.reN s.reD)
    obtain ⟨h3, h4⟩ := int16ofInt_bounds (truncScale s.imN s.imD)
    exact ⟨h1, h2, h3, h4⟩

/-- Witness for C7: the copy loop on two of the three zero samples. -/
theorem C7_converter_witness :
    (copyLoop samples3 2 []).2.2 = [] ++ convertedStream (samples3.take 2) :=
  C7_converter.1 samples3 2 []

/-! ## Claim C8: samples-per-buffer derivation -/

/-- C8 (confirmed): the effective samples-per-buffer equals the byte
length divided by 4 exactly when that quotient is at least 1024 and a
multiple of 1024, and equals the default 4096 in every other case,
including a byte length of 0 (lines 184-192). -/
theorem C8_samples_per_buffer (buflenBytes : Nat) :
    configSamplesPerBuffer buflenBytes =
      if 1024 ≤ buflenBytes / 4 ∧ buflenBytes / 4 % 1024 = 0 then
        buflenBytes / 4
      else NUM_SAMPLES_PER_BUFFER := by
  unfold configSamplesPerBuffer NUM_SAMPLES_PER_BUFFER
  split_ifs <;> omega

/-- Witness for C8 at byte length 8192, giving 2048 samples. -/
theorem C8_samples_per_buffer_witness :
    configSamplesPerBuffer 8192 =
      if 1024 ≤ 8192 / 4 ∧ 8192 / 4 % 1024 = 0 then 8192 / 4
      else NUM_SAMPLES_PER_BUFFER :=
  C8_samples_per_buffer 8192

/-! ## Claim C9: out-of-range center frequency -/

/-- C9 (confirmed): a center-frequency request outside the valid range is
not a hard failure and performs no device write, regardless of whether a
device write would have failed: the request is ignored and the call
returns the device's retained current frequency (lines 452-455, 467). -/
theorem C9_set_center_freq_out_of_range (lo hi freq : ℚ) (devFail : Bool)
    (dev : FreqState) (h : freq < lo ∨ hi < freq) :
    set_center_freq lo hi devFail freq dev = Except.ok (dev, dev.curFreq) := by
  unfold set_center_freq
  rw [if_pos h]

/-- Witness for C9: requesting 20 against the range [0, 10]. -/
theorem C9_set_center_freq_witness :
    set_center_freq 0 10 true 20 devFreq5 = Except.ok (devFreq5, devFreq5.curFreq) :=
  C9_set_center_freq_out_of_range 0 10 20 true devFreq5 (by decide)

/-! ## Claim C10: gain element name dispatch -/

/-- C10 (confirmed): set_gain, get_gain and get_gain_range with a gain
element name succeed exactly when the name is VGA1 or VGA2; for every
other name each raises an error (carrying no device state, so no device
register access is issued) with the message from the source. -/
theorem C10_gain_dispatch (name : String) (gain : ℚ) (dev : GainState) :
    (exceptIsOk (set_gain_named gain name dev) = true ↔
      (name = "VGA1" ∨ name = "VGA2")) ∧
    (exceptIsOk (get_gain_named name dev) = true ↔
      (name = "VGA1" ∨ name = "VGA2")) ∧
    (exceptIsOk (get_gain_range_named name) = true ↔
      (name = "VGA1" ∨ name = "VGA2")) ∧
    (name ≠ "VGA1" → name ≠ "VGA2" →
      set_gain_named gain name dev =
        Except.error "requested to set the gain of an unknown gain element" ∧
      get_gain_named name dev =
        Except.error "requested to get the gain of an unknown gain element" ∧
      get_gain_range_named name =
        Except.error "requested an invalid gain element") := by
  by_cases h1 : name = "VGA1"
  · subst h1
    simp [set_gain_named, get_gain_named, get_gain_range_named, exceptIsOk]
  · by_cases h2 : name = "VGA2"
    · subst h2
      simp [set_gain_named, get_gain_named, get_gain_range_named, exceptIsOk]
    · simp [set_gain_named, get_gain_named, get_gain_range_named, exceptIsOk,
        h1, h2]

/-- Witness for C10 at the invalid name VGA3. -/
theorem C10_gain_dispatch_witness :
    (exceptIsOk (set_gain_named 1 "VGA3" gainDev0) = true ↔
      ("VGA3" = "VGA1" ∨ "VGA3" = "VGA2")) ∧
    (exceptIsOk (get_gain_named "VGA3" gainDev0) = true ↔
      ("VGA3" = "VGA1" ∨ "VGA3" = "VGA2")) ∧
    (exceptIsOk (get_gain_range_named "VGA3") = true ↔
      ("VGA3" = "VGA1" ∨ "VGA3" = "VGA2")) ∧
    ("VGA3" ≠ "VGA1" → "VGA3" ≠ "VGA2" →
      set_gain_named 1 "VGA3" gainDev0 =
        Except.error "requested to set the gain of an unknown gain element" ∧
      get_gain_named "VGA3" gainDev0 =
        Except.error "requested to get the gain of an unknown gain element" ∧
      get_gain_range_named "VGA3" =
        Except.error "requested an invalid gain element") :=
  C10_gain_dispatch "VGA3" 1 gainDev0

/-! ## Claim C1: the return value of work() under shutdown -/

/-- C1 counterexample: on a two-slot pipeline whose next slot is still
filled, a work() call offered three samples consumes two of them, then
observes the running flag become false in its wait and returns 0 — not
the number of samples actually consumed (line 381 returns
running ? noutput_items : 0, so a mid-operation stop never reports the
nonzero count the claim requires). -/
theorem C1_partial_count_counterexample :
    workRet samples3 [EnvAct.stop] stStart = some 0 ∧
    workConsumed samples3 [EnvAct.stop] stStart = some 2 ∧
    workRet samples3 [EnvAct.stop] stStart ≠ some ((2 : Nat) : Int) := by
  refine ⟨by decide, by decide, by decide⟩

/-- C1 (amended): a completed work() call returns noutput_items when the
locally observed running flag is still true at exit and 0 when it is
false — so a stop observed mid-operation yields 0 regardless of the
(possibly nonzero) number of samples already consumed; and when the
running flag is false at entry, work() consumes zero samples, leaves the
state untouched and returns 0 immediately. -/
theorem C1_work_return (ins : List CSample) (env : List EnvAct)
    (st : SinkState) (ret : Int) (consumed : Nat) (st2 : SinkState)
    (h : work ins env st = some (ret, consumed, st2)) :
    ret = (if st2.running = true then (ins.length : Int) else 0) ∧
    (st.running = false → ret = 0 ∧ consumed = 0 ∧ st2 = st) := by
  unfold work at h
  cases hwa : workAux (2 * ins.length + 2) ins env st st.running with
  | none =>
    rw [hwa] at h
    exact absurd h (by simp)
  | some out =>
    obtain ⟨rem, r2, st3⟩ := out
    rw [hwa] at h
    simp at h
    obtain ⟨hret, hcons, hst⟩ := h
    have hr2 : r2 = st3.running :=
      workAux_tracks_running (2 * ins.length + 2) ins env st st.running
        rem r2 st3 hwa rfl
    constructor
    · rw [← hret, ← hst, hr2]
    · intro hrun
      have hfuel : 2 * ins.length + 2 = (2 * ins.length + 1) + 1 := rfl
      rw [hfuel, hrun] at hwa
      have hstop : workAux ((2 * ins.length + 1) + 1) ins env st false
          = some (ins.length, false, st) := by
        unfold workAux
        simp
      rw [hstop] at hwa
      simp at hwa
      obtain ⟨hw1, hw2, hw3⟩ := hwa
      constructor
      · rw [← hret, hw2]
        simp
      constructor
      · rw [← hcons, hw1]
        simp
      · rw [← hst, hw3]

/-- Witness for C1 at a pipeline already stopped at entry. -/
theorem C1_work_return_witness :
    (0 : Int) = (if stStopped.running = true then ((samples3.length : Nat) : Int) else 0) ∧
    (stStopped.running = false → (0 : Int) = 0 ∧ (0 : Nat) = 0 ∧ stStopped = stStopped) :=
  C1_work_return samples3 [] stStopped 0 0 stStopped (by decide)

/-! ## Claim C6: shutdown ordering -/

/-- C6 counterexample: in the destructor the running flag is cleared
before the buffer-status lock is acquired (set_running(false) on line 238
precedes the lock on line 241), so the assignment does not happen
together with the broadcasts under that lock as the claim states. -/
theorem C6_ordering_counterexample :
    ¬ (dtorIdx DtorAct.lockBufStatus < dtorIdx DtorAct.setRunningFalse ∧
       dtorIdx DtorAct.setRunningFalse < dtorIdx DtorAct.unlockBufStatus) := by
  decide

/-- C6 (amended): in the destructor the running flag is cleared first,
before the buffer-status lock is acquired; both broadcast wake-ups happen
together under that lock; the join of the streaming thread happens after
the broadcasts and before the hardware module disable, the stream
deinitialization, the device close and the release of the filled array;
and a producer blocked in its wait loop never sleeps forever once the
environment delivers the stop action — it observes running = false and
returns. -/
theorem C6_shutdown_order :
    (dtorIdx DtorAct.setRunningFalse < dtorIdx DtorAct.lockBufStatus ∧
     dtorIdx DtorAct.lockBufStatus < dtorIdx DtorAct.notifySampAvail ∧
     dtorIdx DtorAct.notifySampAvail < dtorIdx DtorAct.notifyBufferEmptied ∧
     dtorIdx DtorAct.notifyBufferEmptied < dtorIdx DtorAct.unlockBufStatus ∧
     dtorIdx DtorAct.unlockBufStatus < dtorIdx DtorAct.joinThread ∧
     dtorIdx DtorAct.joinThread < dtorIdx DtorAct.disableTxModule ∧
     dtorIdx DtorAct.disableTxModule < dtorIdx DtorAct.deinitStream ∧
     dtorIdx DtorAct.deinitStream < dtorIdx DtorAct.closeDevice ∧
     dtorIdx DtorAct.closeDevice < dtorIdx DtorAct.freeFilled) ∧
    (∀ (pre post : List EnvAct) (st : SinkState) (r : Bool),
      waitEmptied (pre ++ EnvAct.stop :: post) st r ≠ none) := by
  constructor
  · decide
  · intro pre
    induction pre with
    | nil =>
      intro post st r
      rw [List.nil_append]
      unfold waitEmptied
      by_cases hc : prodWaitCond st r = true
      · rw [if_pos hc]
        have hstop : (applyEnv EnvAct.stop st).running = false := rfl
        rw [hstop, waitEmptied_entry_stopped]
        simp
      · rw [if_neg hc]
        simp
    | cons a rest ih =>
      intro post st r
      rw [List.cons_append]
      unfold waitEmptied
      by_cases hc : prodWaitCond st r = true
      · rw [if_pos hc]
        exact ih post (applyEnv a st) (applyEnv a st).running
      · rw [if_neg hc]
        simp

/-- Witness for C6: a producer blocked on stStart is released by a lone
stop action. -/
theorem C6_shutdown_order_witness :
    waitEmptied ([] ++ EnvAct.stop :: []) stStart true ≠ none :=
  C6_shutdown_order.2 [] [] stStart true

/-! ## Claim C4: the consumer hand-off contract -/

theorem get_next_buffer_resolved (env : List EnvAct) (st : SinkState) (i : Nat)
    (hi : i < st.numBuffers) :
    get_next_buffer env st (some i) = gnbWaitPhase env (markEmptied i st) := by
  unfold get_next_buffer buffer2index
  simp [hi]

theorem get_next_buffer_unresolved (env : List EnvAct) (st : SinkState) (i : Nat)
    (hi : ¬ i < st.numBuffers) :
    get_next_buffer env st (some i)
      = Except.error "buffer2index has hit unexpected condition" := by
  unfold get_next_buffer buffer2index
  simp [hi]

theorem gnbWaitPhase_spec (env : List EnvAct) (st : SinkState)
    (ret : Option Nat) (st2 : SinkState) (env2 : List EnvAct)
    (h : gnbWaitPhase env st = Except.ok (some (ret, st2, env2))) :
    (st2.running = true →
      ret = some st.nextToTx ∧
      st2.nextToTx = (st.nextToTx + 1) % st.numBuffers) ∧
    (st2.running = false → ret = none ∧ st2.nextToTx = st.nextToTx) := by
  unfold gnbWaitPhase at h
  cases hws : waitSampAvail env st with
  | none =>
    rw [hws] at h
    exact absurd h (by simp)
  | some out =>
    obtain ⟨st3, env3⟩ := out
    rw [hws] at h
    simp at h
    have hf := waitSampAvail_frame env st st3 env3 hws
    unfold gnbFinish at h
    cases hr : st3.running with
    | true =>
      rw [if_pos hr] at h
      simp at h
      obtain ⟨h1, h2, _⟩ := h
      constructor
      · intro _
        constructor
        · rw [← h1, hf.1]
        · rw [← h2]
          show (st3.nextToTx + 1) % st3.numBuffers = (st.nextToTx + 1) % st.numBuffers
          rw [hf.1, hf.2]
      · intro hcontra
        rw [← h2] at hcontra
        have : st3.running = false := hcontra
        rw [hr] at this
        exact Bool.noConfusion this
    | false =>
      rw [if_neg (by simp [hr])] at h
      simp at h
      obtain ⟨h1, h2, _⟩ := h
      constructor
      · intro hcontra
        rw [← h2, hr] at hcontra
        exact Bool.noConfusion hcontra
      · intro _
        exact ⟨h1.symm, by rw [← h2, hf.1]⟩

/-- C4 (confirmed): for a completed get_next_buffer call, a non-null
returned pointer resolves to a pool slot (else the call is a fatal
error): that slot is marked unfilled and the buffer-emptied condition
signalled on the state the wait then starts from; once the wait
completes, the call returns the buffer at the drain cursor and advances
the cursor by one modulo the pool size exactly when the running flag was
observed true, and returns NULL with the cursor unchanged exactly when it
was observed false. -/
theorem C4_get_next_buffer (env : List EnvAct) (st : SinkState)
    (samples : Option Nat) (i : Nat) (ret : Option Nat) (st2 : SinkState)
    (env2 : List EnvAct)
    (h : get_next_buffer env st samples = Except.ok (some (ret, st2, env2))) :
    (samples = some i →
      i < st.numBuffers ∧
      (markEmptied i st).filled.getD i false = false ∧
      (markEmptied i st).emptiedSignals = st.emptiedSignals + 1 ∧
      get_next_buffer env st samples = gnbWaitPhase env (markEmptied i st)) ∧
    (st2.running = true →
      ret = some st.nextToTx ∧
      st2.nextToTx = (st.nextToTx + 1) % st.numBuffers) ∧
    (st2.running = false → ret = none ∧ st2.nextToTx = st.nextToTx) := by
  have hrest :
      (st2.running = true →
        ret = some st.nextToTx ∧
        st2.nextToTx = (st.nextToTx + 1) % st.numBuffers) ∧
      (st2.running = false → ret = none ∧ st2.nextToTx = st.nextToTx) := by
    cases samples with
    | none =>
      have h2 : gnbWaitPhase env st = Except.ok (some (ret, st2, env2)) := h
      exact gnbWaitPhase_spec env st ret st2 env2 h2
    | some p =>
      by_cases hp : p < st.numBuffers
      · rw [get_next_buffer_resolved env st p hp] at h
        exact gnbWaitPhase_spec env (markEmptied p st) ret st2 env2 h
      · rw [get_next_buffer_unresolved env st p hp] at h
        exact absurd h (by simp)
  refine ⟨?_, hrest⟩
  intro hs
  subst hs
  by_cases hi : i < st.numBuffers
  · exact ⟨hi, getD_set_false_any st.filled i, rfl,
      get_next_buffer_resolved env st i hi⟩
  · rw [get_next_buffer_unresolved env st i hi] at h
    exact absurd h (by simp)

/-- Witness for C4: draining buffer 0 of stDrain while returning buffer 1. -/
theorem C4_get_next_buffer_witness :
    ((some 1 : Option Nat) = some 1 →
      1 < stDrain.numBuffers ∧
      (markEmptied 1 stDrain).filled.getD 1 false = false ∧
      (markEmptied 1 stDrain).emptiedSignals = stDrain.emptiedSignals + 1 ∧
      get_next_buffer [] stDrain (some 1) = gnbWaitPhase [] (markEmptied 1 stDrain)) ∧
    (stDrainAfter.running = true →
      (some 0 : Option Nat) = some stDrain.nextToTx ∧
      stDrainAfter.nextToTx = (stDrain.nextToTx + 1) % stDrain.numBuffers) ∧
    (stDrainAfter.running = false →
      (some 0 : Option Nat) = none ∧ stDrainAfter.nextToTx = stDrain.nextToTx) :=
  C4_get_next_buffer [] stDrain (some 1) 1 (some 0) stDrainAfter [] (by decide)

/-! ## Claim C3: per-slot alternation of the filled flags -/

theorem invTS_init (n : Nat) (hn : 0 < n) : InvTS (initTS n) := by
  refine ⟨hn, by simp [initTS], hn, hn, ?_, ?_, by simp [initTS]⟩
  · intro _
    exact getD_replicate_false n 0
  · intro i hi
    simp [initTS] at hi

theorem invTS_step (s : TSState) (e : Ev) (s2 : TSState)
    (hs : Step s e s2) (hinv : InvTS s) : InvTS s2 := by
  obtain ⟨hn, hlen, hbuf, htx, hready, hinf, hnd⟩ := hinv
  cases hs with
  | write h =>
    refine ⟨hn, ?_, ?_, htx, ?_, ?_, hnd⟩
    · show (s.filled.set s.bufIndex true).length = s.n
      rw [List.length_set]
      exact hlen
    · show (s.bufIndex + 1) % s.n < s.n
      exact Nat.mod_lt _ hn
    · intro hp
      exact Bool.noConfusion hp
    · intro i hi
      have hft := hinf i hi
      have hne : s.bufIndex ≠ i := by
        intro he
        rw [← he, hready h] at hft
        exact Bool.noConfusion hft
      show (s.filled.set s.bufIndex true).getD i false = true
      rw [getD_set_ne s.filled s.bufIndex i true hne]
      exact hft
  | wake h1 h2 =>
    exact ⟨hn, hlen, hbuf, htx, fun _ => h2, hinf, hnd⟩
  | hand h1 h2 =>
    refine ⟨hn, hlen, hbuf, ?_, hready, ?_, ?_⟩
    · show (s.nextToTx + 1) % s.n < s.n
      exact Nat.mod_lt _ hn
    · intro i hi
      rcases List.mem_cons.mp hi with he | hm
      · rw [he]
        exact h1
      · exact hinf i hm
    · exact List.nodup_cons.mpr ⟨h2, hnd⟩
  | ret i0 h =>
    refine ⟨hn, ?_, hbuf, htx, ?_, ?_, ?_⟩
    · show (s.filled.set i0 false).length = s.n
      rw [List.length_set]
      exact hlen
    · intro hp
      show (s.filled.set i0 false).getD s.bufIndex false = false
      by_cases he : i0 = s.bufIndex
      · rw [← he]
        exact getD_set_false_any s.filled i0
      · rw [getD_set_ne s.filled i0 s.bufIndex false he]
        exact hready hp
    · intro j hj
      obtain ⟨hne, hjin⟩ := (List.Nodup.mem_erase_iff hnd).mp hj
      show (s.filled.set i0 false).getD j false = true
      rw [getD_set_ne s.filled i0 j false (Ne.symm hne)]
      exact hinf j hjin
    · exact hnd.erase i0
  | stop =>
    exact ⟨hn, hlen, hbuf, htx, hready, hinf, hnd⟩

theorem reachableTS_inv (n : Nat) (hn : 0 < n) (s : TSState)
    (hr : ReachableTS n s) : InvTS s := by
  induction hr with
  | init => exact invTS_init n hn
  | step s e s2 hre hstep ih => exact invTS_step s e s2 hstep ih

/-- C3 (confirmed): from the initial all-unfilled state, along any
interleaving of producer and consumer steps, each slot's filled flag
strictly alternates: a producer write happens only on a slot whose flag
is false and flips it to true, a hardware return happens only on a slot
whose flag is true and flips it to false, no other step changes any flag,
a slot is handed to the hardware only while its flag is true, and the
producer is at its write point only while the current slot's flag is
false. -/
theorem C3_filled_alternation (n : Nat) (hn : 0 < n) (s : TSState) (e : Ev)
    (s2 : TSState) (i : Nat) (hr : ReachableTS n s) (hs : Step s e s2) :
    (s.prodReady = true → s.filled.getD s.bufIndex false = false) ∧
    (e = Ev.write i →
      s.filled.getD i false = false ∧ s2.filled.getD i false = true) ∧
    (e = Ev.hand i → s.filled.getD i false = true) ∧
    (e = Ev.ret i →
      s.filled.getD i false = true ∧ s2.filled.getD i false = false) ∧
    (e ≠ Ev.write i → e ≠ Ev.ret i →
      s2.filled.getD i false = s.filled.getD i false) := by
  obtain ⟨hn2, hlen, hbuf, htx, hready, hinf, hnd⟩ := reachableTS_inv n hn s hr
  cases hs with
  | write h =>
    refine ⟨hready, ?_, ?_, ?_, ?_⟩
    · intro hw
      injection hw with hbi
      rw [← hbi]
      refine ⟨hready h, ?_⟩
      show (s.filled.set s.bufIndex true).getD s.bufIndex false = true
      exact getD_set_self s.filled s.bufIndex true (by rw [hlen]; exact hbuf)
    · intro hw
      simp at hw
    · intro hw
      simp at hw
    · intro hw1 _
      have hne : s.bufIndex ≠ i := by
        intro he
        exact hw1 (by rw [he])
      show (s.filled.set s.bufIndex true).getD i false = s.filled.getD i false
      exact getD_set_ne s.filled s.bufIndex i true hne
  | wake h1 h2 =>
    refine ⟨hready, ?_, ?_, ?_, ?_⟩
    · intro hw
      simp at hw
    · intro hw
      simp at hw
    · intro hw
      simp at hw
    · intro _ _
      rfl
  | hand h1 h2 =>
    refine ⟨hready, ?_, ?_, ?_, ?_⟩
    · intro hw
      simp at hw
    · intro hw
      injection hw with hbi
      rw [← hbi]
      exact h1
    · intro hw
      simp at hw
    · intro _ _
      rfl
  | ret i0 h =>
    refine ⟨hready, ?_, ?_, ?_, ?_⟩
    · intro hw
      simp at hw
    · intro hw
      simp at hw
    · intro hw
      injection hw with hbi
      rw [← hbi]
      refine ⟨hinf i0 h, ?_⟩
      show (s.filled.set i0 false).getD i0 false = false
      exact getD_set_false_any s.filled i0
    · intro _ hw2
      have hne : i0 ≠ i := by
        intro he
        exact hw2 (by rw [he])
      show (s.filled.set i0 false).getD i false = s.filled.getD i false
      exact getD_set_ne s.filled i0 i false hne
  | stop =>
    refine ⟨hready, ?_, ?_, ?_, ?_⟩
    · intro hw
      simp at hw
    · intro hw
      simp at hw
    · intro hw
      simp at hw
    · intro _ _
      rfl

/-- Witness for C3: the first producer write on a fresh two-slot pool. -/
theorem C3_filled_alternation_witness :
    ((initTS 2).prodReady = true →
      (initTS 2).filled.getD (initTS 2).bufIndex false = false) ∧
    (Ev.write 0 = Ev.write 0 →
      (initTS 2).filled.getD 0 false = false ∧
      tsAfterWrite.filled.getD 0 false = true) ∧
    (Ev.write 0 = Ev.hand 0 → (initTS 2).filled.getD 0 false = true) ∧
    (Ev.write 0 = Ev.ret 0 →
      (initTS 2).filled.getD 0 false = true ∧
      tsAfterWrite.filled.getD 0 false = false) ∧
    (Ev.write 0 ≠ Ev.write 0 → Ev.write 0 ≠ Ev.ret 0 →
      tsAfterWrite.filled.getD 0 false = (initTS 2).filled.getD 0 false) :=
  C3_filled_alternation 2 (by decide) (initTS 2) (Ev.write 0) tsAfterWrite 0
    ReachableTS.init (Step.write (initTS 2) rfl)

end BladerfSink
